import Mathlib

/-!
Verification of the task-processing core of `url-to-mealie`.

This file gives a shallow embedding of the Python modules
`src/ai/task.py`, `src/ai/llm_task_queue.py`, `src/ai/recipe_parser.py`
and `src/recipe/mealie.py`, and proves properties of the embedded
definitions.  Python dict/JSON values are modelled by the inductive
`JVal`; Python attribute access on `Task` instances (instance dict
first, then class attributes, else `AttributeError`) is modelled by
`getattr`; external collaborators (the LLM server, the in-process
llama model, the Mealie recipe store) are modelled by oracles carried
in a `TaskEnv` record, one per processed task.
-/

namespace UrlToMealie

/-- Model of the Python/JSON values produced by `json.loads` and passed
around as dicts in the source.  Integer literals are `num false m 0`;
float literals are `num true m e` with value `m * 10 ^ e`.  Objects are
insertion-ordered association lists, as CPython dicts are. -/
inductive JVal where
  | null
  | bool (b : Bool)
  | num (isFloat : Bool) (m : Int) (e : Int)
  | nan
  | inf (neg : Bool)
  | str (s : String)
  | arr (xs : List JVal)
  | obj (kvs : List (String × JVal))

/-- Python truthiness of a `JVal` (`bool(x)` in CPython). -/
def JVal.truthy : JVal → Bool
  | .null => false
  | .bool b => b
  | .num _ m _ => m != 0
  | .nan => true
  | .inf _ => true
  | .str s => !s.isEmpty
  | .arr xs => !xs.isEmpty
  | .obj kvs => !kvs.isEmpty

/-- Model of `d.get(k)` with default `None`; Python raises on non-dicts
but every call site in the source applies it to a parsed JSON object. -/
def JVal.getD : JVal → String → JVal
  | .obj kvs, k =>
    match kvs.find? (fun kv => kv.1 == k) with
    | some kv => kv.2
    | none => .null
  | _, _ => .null

/-- Model of `k in d` (dict key containment). -/
def JVal.hasKey : JVal → String → Bool
  | .obj kvs, k => kvs.any (fun kv => kv.1 == k)
  | _, _ => false

/-- Replace the value of key `k` if present (keeping its position, as a
CPython dict does), else append the pair: model of `d[k] = v`. -/
def assocSet {α : Type} (kvs : List (String × α)) (k : String) (v : α) :
    List (String × α) :=
  match kvs with
  | [] => [(k, v)]
  | (k2, v2) :: rest =>
    if k2 == k then (k2, v) :: rest else (k2, v2) :: assocSet rest k v

def objSetList (kvs : List (String × JVal)) (k : String) (v : JVal) :
    List (String × JVal) :=
  assocSet kvs k v

/-- Model of `d[k] = v` on a `JVal` object. -/
def JVal.objSet : JVal → String → JVal → JVal
  | .obj kvs, k, v => .obj (objSetList kvs k v)
  | j, _, _ => j

def JVal.isObj : JVal → Bool
  | .obj _ => true
  | _ => false

/-- Whitespace characters skipped by the CPython `json` scanner. -/
def jsonWs (c : Char) : Bool :=
  c == ' ' || c == '\t' || c == '\n' || c == '\r'

def skipWs (cs : List Char) : List Char := cs.dropWhile jsonWs

def isHexDig (c : Char) : Bool :=
  c.isDigit || ('a' ≤ c && c ≤ 'f') || ('A' ≤ c && c ≤ 'F')

/-- Read exactly four hex digits, returning their value and the rest. -/
def parseHex4 (cs : List Char) : Option (Nat × List Char) :=
  match cs with
  | a :: b :: c :: d :: rest =>
    if isHexDig a && isHexDig b && isHexDig c && isHexDig d then
      let h := fun (x : Char) =>
        if x.isDigit then x.toNat - 48
        else if x.toNat ≥ 97 then x.toNat - 87 else x.toNat - 55
      some (((h a * 16 + h b) * 16 + h c) * 16 + h d, rest)
    else none
  | _ => none

/-- Model of the CPython `json` string scanner (strict mode), on the
characters after the opening quote.  Escapes and surrogate pairs are
decoded; a lone surrogate (representable in a Python `str` but not in a
Lean `String`) is mapped to U+FFFD. -/
def parseJStringAux : Nat → List Char → List Char → Option (String × List Char)
  | 0, _, _ => none
  | fuel + 1, acc, cs =>
    match cs with
    | [] => none
    | c :: rest =>
      if c == '"' then some (String.mk acc.reverse, rest)
      else if c == '\\' then
        match rest with
        | [] => none
        | e :: rest2 =>
          if e == '"' then parseJStringAux fuel ('"' :: acc) rest2
          else if e == '\\' then parseJStringAux fuel ('\\' :: acc) rest2
          else if e == '/' then parseJStringAux fuel ('/' :: acc) rest2
          else if e == 'b' then parseJStringAux fuel ('\x08' :: acc) rest2
          else if e == 'f' then parseJStringAux fuel ('\x0c' :: acc) rest2
          else if e == 'n' then parseJStringAux fuel ('\n' :: acc) rest2
          else if e == 'r' then parseJStringAux fuel ('\r' :: acc) rest2
          else if e == 't' then parseJStringAux fuel ('\t' :: acc) rest2
          else if e == 'u' then
            match parseHex4 rest2 with
            | none => none
            | some (n, rest3) =>
              if 0xD800 ≤ n && n ≤ 0xDBFF then
                match rest3 with
                | '\\' :: 'u' :: rest4 =>
                  match parseHex4 rest4 with
                  | some (n2, rest5) =>
                    if 0xDC00 ≤ n2 && n2 ≤ 0xDFFF then
                      let cp := 0x10000 + (n - 0xD800) * 0x400 + (n2 - 0xDC00)
                      parseJStringAux fuel (Char.ofNat cp :: acc) rest5
                    else parseJStringAux fuel ('\uFFFD' :: acc) rest3
                  | none => parseJStringAux fuel ('\uFFFD' :: acc) rest3
                | _ => parseJStringAux fuel ('\uFFFD' :: acc) rest3
              else if 0xDC00 ≤ n && n ≤ 0xDFFF then
                parseJStringAux fuel ('\uFFFD' :: acc) rest3
              else parseJStringAux fuel (Char.ofNat n :: acc) rest3
          else none
      else if c.toNat < 0x20 then none
      else parseJStringAux fuel (c :: acc) rest

def parseJString (cs : List Char) : Option (String × List Char) :=
  parseJStringAux (cs.length + 1) [] cs

def digitsToNat (ds : List Char) : Nat :=
  ds.foldl (fun a c => a * 10 + (c.toNat - 48)) 0

/-- Model of the CPython `json` number regex
`(-?(0|[1-9]\d*))(\.\d+)?([eE][+-]?\d+)?`, greedy, leaving any
unmatched tail in place (where the scanner then reports an error). -/
def parseNumber (cs : List Char) : Option (JVal × List Char) :=
  let (neg, cs1) :=
    match cs with
    | '-' :: r => (true, r)
    | _ => (false, cs)
  match cs1 with
  | [] => none
  | c :: _ =>
    if !c.isDigit then none
    else
      let (ipDigits, r1) :=
        if c == '0' then ([c], cs1.tail)
        else (cs1.takeWhile Char.isDigit, cs1.dropWhile Char.isDigit)
      let (fracDigits, r2) :=
        match r1 with
        | '.' :: r =>
          let fd := r.takeWhile Char.isDigit
          if fd.isEmpty then ([], r1) else (fd, r.dropWhile Char.isDigit)
        | _ => ([], r1)
      let (expVal, hasExp, r3) :=
        match r2 with
        | e :: r =>
          if e == 'e' || e == 'E' then
            let (eneg, r4) :=
              match r with
              | '+' :: rr => (false, rr)
              | '-' :: rr => (true, rr)
              | _ => (false, r)
            let ed := r4.takeWhile Char.isDigit
            if ed.isEmpty then ((0 : Int), false, r2)
            else
              let v : Int := Int.ofNat (digitsToNat ed)
              ((if eneg then -v else v), true, r4.dropWhile Char.isDigit)
          else ((0 : Int), false, r2)
        | [] => ((0 : Int), false, r2)
      let isFloat := hasExp || !fracDigits.isEmpty
      let m0 : Int := Int.ofNat (digitsToNat (ipDigits ++ fracDigits))
      let m1 : Int := if neg then -m0 else m0
      let e1 : Int := expVal - Int.ofNat fracDigits.length
      some (.num isFloat m1 e1, r3)

mutual

/-- Model of the CPython `json` value scanner (one JSON value starting
at the head of the list, returning it with the unconsumed rest). -/
def parseVal : Nat → List Char → Option (JVal × List Char)
  | 0, _ => none
  | fuel + 1, cs =>
    match cs with
    | [] => none
    | c :: rest =>
      if c == '"' then
        match parseJString rest with
        | some (s, r) => some (.str s, r)
        | none => none
      else if c == '{' then parseObjBody fuel (skipWs rest)
      else if c == '[' then parseArrBody fuel (skipWs rest)
      else if c == 'n' then
        if ['u', 'l', 'l'].isPrefixOf rest then some (.null, rest.drop 3) else none
      else if c == 't' then
        if ['r', 'u', 'e'].isPrefixOf rest then some (.bool true, rest.drop 3)
        else none
      else if c == 'f' then
        if ['a', 'l', 's', 'e'].isPrefixOf rest then some (.bool false, rest.drop 4)
        else none
      else if c == 'N' then
        if ['a', 'N'].isPrefixOf rest then some (.nan, rest.drop 2) else none
      else if c == 'I' then
        if ['n', 'f', 'i', 'n', 'i', 't', 'y'].isPrefixOf rest then
          some (.inf false, rest.drop 7)
        else none
      else if c == '-' && ['I', 'n', 'f', 'i', 'n', 'i', 't', 'y'].isPrefixOf rest then
        some (.inf true, rest.drop 8)
      else parseNumber cs

/-- Members of an object after `\x7b` and leading whitespace. -/
def parseObjBody : Nat → List Char → Option (JVal × List Char)
  | 0, _ => none
  | fuel + 1, cs =>
    match cs with
    | '}' :: rest => some (.obj [], rest)
    | _ => parseObjMembers fuel cs []

/-- Nonempty member list of an object; `cs` starts at a key quote. -/
def parseObjMembers : Nat → List Char → List (String × JVal) →
    Option (JVal × List Char)
  | 0, _, _ => none
  | fuel + 1, cs, acc =>
    match cs with
    | '"' :: rest =>
      match parseJString rest with
      | none => none
      | some (k, r1) =>
        match skipWs r1 with
        | ':' :: r2 =>
          match parseVal fuel (skipWs r2) with
          | none => none
          | some (v, r3) =>
            let acc2 := objSetList acc k v
            match skipWs r3 with
            | ',' :: r4 => parseObjMembers fuel (skipWs r4) acc2
            | '}' :: r4 => some (.obj acc2, r4)
            | _ => none
        | _ => none
    | _ => none

/-- Elements of an array after `[` and leading whitespace. -/
def parseArrBody : Nat → List Char → Option (JVal × List Char)
  | 0, _ => none
  | fuel + 1, cs =>
    match cs with
    | ']' :: rest => some (.arr [], rest)
    | _ => parseArrElems fuel cs []

/-- Nonempty element list of an array; `cs` starts at a value. -/
def parseArrElems : Nat → List Char → List JVal → Option (JVal × List Char)
  | 0, _, _ => none
  | fuel + 1, cs, acc =>
    match parseVal fuel cs with
    | none => none
    | some (v, r1) =>
      match skipWs r1 with
      | ',' :: r2 => parseArrElems fuel (skipWs r2) (acc ++ [v])
      | ']' :: r2 => some (.arr (acc ++ [v]), r2)
      | _ => none

end

/-- Model of `json.loads`: one JSON value, surrounding whitespace
allowed, nothing else; `none` models a raised `json.JSONDecodeError`. -/
def jsonLoads (s : String) : Option JVal :=
  let cs := skipWs s.toList
  match parseVal (2 * cs.length + 8) cs with
  | some (v, rest) => if (skipWs rest).isEmpty then some v else none
  | none => none

/-- Left-to-right non-overlapping replacement, the semantics of Python
`str.replace` for a non-empty pattern.  The fuel argument only bounds
recursion depth; `input.length + 1` always suffices. -/
def replaceAux : Nat → List Char → List Char → List Char → List Char
  | 0, _, _, cs => cs
  | fuel + 1, pat, rep, cs =>
    if pat.isPrefixOf cs then rep ++ replaceAux fuel pat rep (cs.drop pat.length)
    else
      match cs with
      | [] => []
      | c :: rest => c :: replaceAux fuel pat rep rest

/-- Model of Python `str.replace` (for the non-empty patterns the
source uses). -/
def pyReplace (s pat rep : String) : String :=
  String.mk (replaceAux (s.toList.length + 1) pat.toList rep.toList s.toList)

def pySplitAux : Nat → List Char → List Char → List Char → List (List Char)
  | 0, _, acc, cs => [acc.reverse ++ cs]
  | fuel + 1, sep, acc, cs =>
    if sep.isPrefixOf cs then acc.reverse :: pySplitAux fuel sep [] (cs.drop sep.length)
    else
      match cs with
      | [] => [acc.reverse]
      | c :: rest => pySplitAux fuel sep (c :: acc) rest

/-- Model of Python `str.split(sep)` for a non-empty separator. -/
def pySplit (s sep : String) : List String :=
  (pySplitAux (s.toList.length + 1) sep.toList [] s.toList).map String.mk

/-- Characters stripped by Python `str.strip()` (ASCII whitespace; the
source never feeds it non-ASCII whitespace). -/
def isPySpace (c : Char) : Bool :=
  c == ' ' || c == '\t' || c == '\n' || c == '\r' || c == '\x0b' || c == '\x0c'

/-- Model of `str.strip()`. -/
def pyStrip (s : String) : String :=
  String.mk (((s.toList.dropWhile isPySpace).reverse.dropWhile isPySpace).reverse)

/-- The sentence-like fragments `naive_parse` works on: split on the
sentence-terminating delimiter `.`, strip each piece, drop empty
ones. -/
def sentenceFragments (text : String) : List String :=
  ((pySplit text ".").map pyStrip).filter (fun l => !l.isEmpty)

/-- Faithful embedding of `naive_parse` (recipe_parser.py, lines
160-174): split on `.`, strip, drop empty fragments; fragments with a
digit are ingredients, the rest instruction steps; placeholder name and
placeholder ingredient when none qualify. -/
def naive_parse (text : String) : JVal :=
  let lines := sentenceFragments text
  let ingredients := lines.filter (fun l => l.toList.any Char.isDigit)
  let instructions := lines.filter (fun l => !ingredients.contains l)
  .obj
    [("name", .str "Recipe from Social Media video"),
     ("recipeIngredient",
      .arr (if ingredients.isEmpty then [.str "See transcription"]
            else ingredients.map JVal.str)),
     ("recipeInstructions",
      .arr (instructions.map (fun step => .obj [("text", .str step)])))]

/-- Model of the Python exception values flowing through the core.
`jsonDecodeError` models `json.JSONDecodeError`, which in CPython is a
subclass of `ValueError`. -/
inductive PyError where
  | valueError (msg : String)
  | jsonDecodeError (msg : String)
  | llmServerRequestError (msg : String)
  | attributeError (msg : String)
  | mealieConfigError (msg : String)
  | recipeValidationError (msg : String)
  | connectionError (msg : String)
  | timeoutError (msg : String)
  | httpError (code : Nat) (msg : String)
  | invalidJsonError (msg : String)
  | httpException (code : Nat) (detail : String)
  | runtimeError (msg : String)
deriving DecidableEq, Repr

/-- Model of `str(e)` on the exceptions above (`str` of a FastAPI
`HTTPException` prints the status code and detail). -/
def PyError.toStr : PyError → String
  | .valueError m => m
  | .jsonDecodeError m => m
  | .llmServerRequestError m => m
  | .attributeError m => m
  | .mealieConfigError m => m
  | .recipeValidationError m => m
  | .connectionError m => m
  | .timeoutError m => m
  | .httpError _ m => m
  | .invalidJsonError m => m
  | .httpException c d => toString c ++ ": " ++ d
  | .runtimeError m => m

/-- True for `ValueError` and its subclass `json.JSONDecodeError`: the
single (super)type under which every parse failure is raised. -/
def PyError.isValueError : PyError → Bool
  | .valueError _ => true
  | .jsonDecodeError _ => true
  | _ => false

/-- True exactly for the LLM Client transport-error type
`LLMServerRequestError` (llm_task_queue.py, lines 143-146). -/
def PyError.isLLMServerRequestError : PyError → Bool
  | .llmServerRequestError _ => true
  | _ => false

/-- The successive `str.replace` cleanup of `parse_llm_response`
(recipe_parser.py, lines 102-105): strip code-fence markers and
normalize typographic quotes. -/
def cleanupResponse (s : String) : String :=
  pyReplace (pyReplace (pyReplace (pyReplace (pyReplace (pyReplace s
    "```json" "") "```" "") "”" "\"") "“" "\"") "’" "\x27") "‘" "\x27"

/-- Index of the first occurrence of `c`, if any. -/
def findChar (c : Char) : List Char → Option Nat
  | [] => none
  | x :: xs => if x = c then some 0 else (findChar c xs).map (· + 1)

/-- Index of the last occurrence of `c`, if any. -/
def rfindChar (c : Char) : List Char → Option Nat
  | [] => none
  | x :: xs =>
    match rfindChar c xs with
    | some i => some (i + 1)
    | none => if x = c then some 0 else none

/-- Model of Python `str.find` for a single character (index of the
first occurrence, in code points, or `-1`). -/
def pyFind (cs : List Char) (c : Char) : Int :=
  match findChar c cs with
  | some i => Int.ofNat i
  | none => -1

/-- Model of Python `str.rfind` for a single character (index of the
last occurrence, or `-1`). -/
def pyRFind (cs : List Char) (c : Char) : Int :=
  match rfindChar c cs with
  | some i => Int.ofNat i
  | none => -1

/-- Model of the Python slice `s[a:b]` for `0 ≤ a ≤ b ≤ len s`. -/
def pySlice (cs : List Char) (a b : Nat) : List Char :=
  (cs.drop a).take (b - a)

/-- Faithful embedding of `parse_llm_response` (recipe_parser.py, lines
97-120): cleanup, locate the first `\x7b` and last `\x7d`, `json.loads`
the enclosed span, and require truthy `recipeIngredient` and
`recipeInstructions`; every other outcome raises `ValueError` (or its
subclass `json.JSONDecodeError` from `json.loads`). -/
def parse_llm_response (response : String) : Except PyError JVal :=
  let cs := (cleanupResponse response).toList
  let start := pyFind cs '{'
  let stop := pyRFind cs '}' + 1
  if start ≥ 0 && stop > start then
    let jsonStr := String.mk (pySlice cs start.toNat stop.toNat)
    match jsonLoads jsonStr with
    | none => .error (.jsonDecodeError "Expecting value")
    | some parsed =>
      if (parsed.getD "recipeIngredient").truthy &&
          (parsed.getD "recipeInstructions").truthy then
        .ok parsed
      else .error (.valueError "Invalid or empty recipe structure")
  else .error (.valueError "Invalid or empty recipe structure")

/-- Decimal rendering used by `numToStr` below. -/
def decimalOfDigits (s : String) (k : Nat) : String :=
  let s2 := if s.length ≤ k then String.mk (List.replicate (k + 1 - s.length) '0') ++ s
            else s
  String.mk ((s2.toList.take (s2.length - k)) ++ '.' :: s2.toList.drop (s2.length - k))

/-- Model of Python `str()` on a number parsed from JSON (ints print as
digits; floats with a decimal point). -/
def numToStr (isFloat : Bool) (m : Int) (e : Int) : String :=
  if !isFloat then toString m
  else if e ≥ 0 then toString (m * (10 : Int) ^ e.toNat) ++ ".0"
  else
    (if m < 0 then "-" else "") ++ decimalOfDigits (toString m.natAbs) (-e).toNat

mutual

/-- Model of Python `repr()` on values parsed from JSON (string quoting
subtleties elided: all strings render in single quotes, unescaped). -/
def pyRepr : JVal → String
  | .null => "None"
  | .bool b => if b then "True" else "False"
  | .num f m e => numToStr f m e
  | .nan => "nan"
  | .inf n => if n then "-inf" else "inf"
  | .str s => "\x27" ++ s ++ "\x27"
  | .arr xs => "[" ++ String.intercalate ", " (pyReprList xs) ++ "]"
  | .obj kvs => "\x7b" ++ String.intercalate ", " (pyReprKVs kvs) ++ "\x7d"

def pyReprList : List JVal → List String
  | [] => []
  | x :: xs => pyRepr x :: pyReprList xs

def pyReprKVs : List (String × JVal) → List String
  | [] => []
  | (k, v) :: kvs => ("\x27" ++ k ++ "\x27: " ++ pyRepr v) :: pyReprKVs kvs

end

/-- Model of Python `str()` on values parsed from JSON. -/
def pyStr : JVal → String
  | .str s => s
  | v => pyRepr v

/-- The normalization block of `smart_parse` (recipe_parser.py, lines
146-155): default missing fields, wrap a non-list instruction field as
one text entry, and wrap each non-dict entry of a list as a text
entry. -/
def normalize_parsed (parsed : JVal) : JVal :=
  let p1 := if parsed.hasKey "recipeIngredient" then parsed
            else parsed.objSet "recipeIngredient" (.arr [])
  let p2 := if p1.hasKey "recipeInstructions" then p1
            else p1.objSet "recipeInstructions" (.arr [])
  match p2.getD "recipeInstructions" with
  | .arr xs =>
    if xs.all JVal.isObj then p2
    else
      p2.objSet "recipeInstructions"
        (.arr (xs.map (fun x => .obj [("text", .str (pyStr x))])))
  | v => p2.objSet "recipeInstructions" (.arr [.obj [("text", .str (pyStr v))]])

/-- Faithful embedding of `smart_parse` (recipe_parser.py, lines
123-157).  The in-process llama call (lines 130-141: `get_llm` plus
`create_chat_completion` plus extraction of the reply content) is an
external collaborator, modelled by its outcome `localLlm`: the reply
text, or the exception the call raised. -/
def smart_parse (localLlm : Except PyError String) : Except PyError JVal :=
  match localLlm with
  | .error e => .error e
  | .ok responseText =>
    match parse_llm_response responseText with
    | .error e => .error e
    | .ok parsed => .ok (normalize_parsed parsed)

/-- Embedding of the `TaskContext` dataclass (task.py, lines 7-12). -/
structure TaskContext where
  caption : String
  transcription : String
  thumbnail : Option String
  prompt : String
deriving DecidableEq, Repr

/-- Embedding of the `TaskStatus` enum (task.py, lines 15-22). -/
inductive TaskStatus where
  | PROCESSING
  | TRANSCRIBING
  | WAITING
  | GENERATING
  | SAVING
  | COMPLETED
  | FAILED
deriving DecidableEq, Repr

/-- Position of a status in the forward order of the state graph. -/
def TaskStatus.rank : TaskStatus → Nat
  | .PROCESSING => 0
  | .TRANSCRIBING => 1
  | .WAITING => 2
  | .GENERATING => 3
  | .SAVING => 4
  | .COMPLETED => 5
  | .FAILED => 6

/-- The string value of each `TaskStatus` member (`str` of a
`str`-mixin enum member is its value). -/
def TaskStatus.toStr : TaskStatus → String
  | .PROCESSING => "processing before transcription"
  | .TRANSCRIBING => "transcribing"
  | .WAITING => "waiting for LLM to have a free slot"
  | .GENERATING => "LLM is generating"
  | .SAVING => "saving recipe"
  | .COMPLETED => "completed"
  | .FAILED => "failed"

/-- Values a `Task` attribute can hold in the source. -/
inductive AttrVal where
  | vStr (s : String)
  | vInt (n : Int)
  | vStatus (st : TaskStatus)
  | vContext (ctx : TaskContext)
  | vDatetime (t : Int)
  | vNone
deriving DecidableEq, Repr

/-- Python truthiness of an attribute value (enum members, dataclass
instances and datetimes are truthy). -/
def AttrVal.truthy : AttrVal → Bool
  | .vStr s => !s.isEmpty
  | .vInt n => n != 0
  | .vStatus _ => true
  | .vContext _ => true
  | .vDatetime _ => true
  | .vNone => false

/-- Model of `str()` applied to an attribute value in an f-string. -/
def AttrVal.toStr : AttrVal → String
  | .vStr s => s
  | .vInt n => toString n
  | .vStatus st => st.toStr
  | .vContext _ => "TaskContext"
  | .vDatetime t => toString t
  | .vNone => "None"

/-- The dataclass field defaults of `Task` (task.py, lines 25-34),
evaluated once when the class body runs and stored as class
attributes.  `id`, `started_at` and `finished_at` are frozen at the
time the module was imported (`classInit`); `url` and `context` have
no default and therefore no class attribute. -/
structure TaskClassInit where
  idMs : Int
  startedAt : Int
  finishedAt : Int
deriving DecidableEq, Repr

def taskClassAttrs (ci : TaskClassInit) : List (String × AttrVal) :=
  [("id", .vInt ci.idMs),
   ("status", .vStatus .PROCESSING),
   ("queue_position", .vInt (-1)),
   ("started_at", .vDatetime ci.startedAt),
   ("finished_at", .vDatetime ci.finishedAt),
   ("error", .vNone)]

/-- A `Task` instance: its `__dict__` of instance attributes. -/
structure PyTask where
  dict : List (String × AttrVal)
deriving DecidableEq, Repr

/-- The hand-written `Task.__init__` (task.py, lines 36-37), which
shadows the dataclass-generated one: it sets only `url`. -/
def Task.init (url : String) : PyTask := ⟨[("url", .vStr url)]⟩

def lookupAttr (d : List (String × AttrVal)) (k : String) : Option AttrVal :=
  match d.find? (fun kv => kv.1 == k) with
  | some kv => some kv.2
  | none => none

/-- Python attribute lookup on a `Task`: instance `__dict__` first,
then the class attributes, else `AttributeError`. -/
def getattr (ci : TaskClassInit) (t : PyTask) (name : String) :
    Except PyError AttrVal :=
  match lookupAttr t.dict name with
  | some v => .ok v
  | none =>
    match lookupAttr (taskClassAttrs ci) name with
    | some v => .ok v
    | none =>
      .error (.attributeError
        ("\x27Task\x27 object has no attribute \x27" ++ name ++ "\x27"))

/-- Python attribute assignment on a `Task`: writes the instance
`__dict__` (class attributes are never modified). -/
def setattr (t : PyTask) (name : String) (v : AttrVal) : PyTask :=
  ⟨assocSet t.dict name v⟩

/-- Current value of `task.status` (total: `status` always resolves,
through the class default if never assigned). -/
def taskStatus (ci : TaskClassInit) (t : PyTask) : TaskStatus :=
  match getattr ci t "status" with
  | .ok (.vStatus st) => st
  | _ => .PROCESSING

/-- Outcome of the HTTP exchange inside `_call_llm_server`
(llm_task_queue.py, lines 118-134): a 2xx response with a JSON body,
a `requests` transport failure, or a non-JSON body. -/
inductive TransportOutcome where
  | success (body : JVal)
  | requestException (msg : String)
  | jsonDecodeError (msg : String)

/-- Embedding of `_call_llm_server` (llm_task_queue.py, lines 114-140)
over the outcome of its HTTP exchange: both failure modes are
re-raised as the classified `LLMServerRequestError`. -/
def call_llm_server (o : TransportOutcome) : Except PyError JVal :=
  match o with
  | .success body => .ok body
  | .requestException m =>
    .error (.llmServerRequestError ("Failed to get response from LLM server: " ++ m))
  | .jsonDecodeError m =>
    .error (.llmServerRequestError ("Invalid JSON response from LLM server: " ++ m))

/-- The Mealie configuration read at module import (mealie.py, lines
22-26) as seen by the `handle_mealie_errors` decorator. -/
structure MealieCfg where
  tokenSet : Bool
  baseUrlSet : Bool
  urlValid : Bool
deriving DecidableEq, Repr

def MealieCfg.good (cfg : MealieCfg) : Bool :=
  cfg.tokenSet && cfg.baseUrlSet && cfg.urlValid

/-- The except-chain of `handle_mealie_errors` (mealie.py, lines
79-126): translate whatever the body raised into an `HTTPException`. -/
def mealieWrap : PyError → PyError
  | .connectionError _ =>
    .httpException 503 "Could not connect to Mealie. Please check the URL and ensure Mealie is running."
  | .timeoutError _ => .httpException 504 "Request to Mealie timed out"
  | .httpError code m =>
    .httpException code
      (if code == 401 then "Invalid or expired Mealie API token"
       else if code == 429 then "Too many requests to Mealie API"
       else if code == 404 then "Recipe or resource not found in Mealie"
       else "Mealie API error: " ++ m)
  | .invalidJsonError _ => .httpException 502 "Invalid JSON response from Mealie API"
  | .mealieConfigError m => .httpException 500 m
  | .recipeValidationError m => .httpException 400 m
  | _ => .httpException 500 "Internal server error"

/-- The `handle_mealie_errors` decorator (mealie.py, lines 51-128)
around a body with a known outcome: configuration validation first,
then error translation. -/
def runMealie {α : Type} (cfg : MealieCfg) (body : Except PyError α) :
    Except PyError α :=
  if !cfg.tokenSet || !cfg.baseUrlSet then
    .error (mealieWrap (.mealieConfigError
      "Mealie configuration is incomplete. Check MEALIE_TOKEN and MEALIE_BASE_URL."))
  else if !cfg.urlValid then
    .error (mealieWrap (.mealieConfigError "Invalid Mealie base URL"))
  else
    match body with
    | .ok a => .ok a
    | .error e => .error (mealieWrap e)

/-- External-collaborator outcomes for one processed task: each field
is the outcome of one network exchange (or llama invocation) the
pipeline may perform, in source order. -/
structure TaskEnv where
  update1 : Option PyError
  transport : TransportOutcome
  localLlm : Except PyError String
  parseIngr : Except PyError JVal
  update2 : Option PyError

/-- Embedding of `update_recipe` (mealie.py, lines 210-238): decorated,
with the two HTTP exchanges abstracted by one outcome. -/
def update_recipe (cfg : MealieCfg) (o : Option PyError) : Except PyError Unit :=
  runMealie cfg (match o with | none => .ok () | some e => .error e)

/-- Embedding of `mealie_parse_ingredients` (mealie.py, lines 276-288):
decorated, with the HTTP exchange abstracted by its outcome. -/
def mealie_parse_ingredients (cfg : MealieCfg) (o : Except PyError JVal) :
    Except PyError JVal :=
  runMealie cfg o

/-- The JSON value an attribute contributes to a request payload. -/
def AttrVal.toJ : AttrVal → JVal
  | .vStr s => .str s
  | .vInt n => .num false n 0
  | .vNone => .null
  | v => .str v.toStr

/-- Model of `d.get(k, default)`. -/
def JVal.getDef (j : JVal) (k : String) (dflt : JVal) : JVal :=
  if j.hasKey k then j.getD k else dflt

/-- Result of one call of `llm_response_to_mealie`: the task (possibly
mutated), the recipe the call settled on (if it got that far), whether
the fallback parser produced it, the `task.status` assignments made,
the persisted update payload, and the exception propagated to the
caller, already translated by the decorator. -/
structure MealieStep where
  task : PyTask
  usedRecipe : Option JVal
  usedFallback : Bool
  assigned : List TaskStatus
  updates : Option JVal
  raised : Option PyError

/-- The tail of `llm_response_to_mealie` (mealie.py, lines 327-340),
after the ingredients came back and `task.status` was set to SAVING:
build `recipe_updates` (reading `task.url` and `task.original_caption`)
and persist through `update_recipe`. -/
def llmFinish (ci : TaskClassInit) (cfg : MealieCfg) (env : TaskEnv)
    (t2 : PyTask) (recipe : JVal) (usedFb : Bool) (ingredients : JVal) :
    MealieStep :=
  match getattr ci t2 "url" with
  | .error e => ⟨t2, some recipe, usedFb, [.SAVING], none, some (mealieWrap e)⟩
  | .ok urlV =>
    match getattr ci t2 "original_caption" with
    | .error e => ⟨t2, some recipe, usedFb, [.SAVING], none, some (mealieWrap e)⟩
    | .ok capV =>
      let updates : JVal := .obj
        [("orgURL", urlV.toJ),
         ("recipeIngredient", ingredients),
         ("recipeInstructions", recipe.getDef "recipeInstructions" (.arr [])),
         ("description", .str ("**[ORIGINAL CAPTION]**" ++
           capV.toStr ++ "\n\n[Status: Processing completed]"))]
      match update_recipe cfg env.update2 with
      | .error e =>
        ⟨t2, some recipe, usedFb, [.SAVING], some updates, some (mealieWrap e)⟩
      | .ok _ => ⟨t2, some recipe, usedFb, [.SAVING], some updates, none⟩

/-- Faithful embedding of `llm_response_to_mealie` (mealie.py, lines
291-340) under its `handle_mealie_errors` decorator.  The `smart_parse`
attempt is guarded by the local try/except whose handler falls back to
`naive_parse` of the task transcription (lines 307-315). -/
def llm_response_to_mealie (ci : TaskClassInit) (cfg : MealieCfg)
    (env : TaskEnv) (t : PyTask) : MealieStep :=
  if !cfg.tokenSet || !cfg.baseUrlSet then
    ⟨t, none, false, [], none, some (mealieWrap (.mealieConfigError
      "Mealie configuration is incomplete. Check MEALIE_TOKEN and MEALIE_BASE_URL."))⟩
  else if !cfg.urlValid then
    ⟨t, none, false, [], none,
     some (mealieWrap (.mealieConfigError "Invalid Mealie base URL"))⟩
  else
    match getattr ci t "context" with
    | .error e => ⟨t, none, false, [], none, some (mealieWrap e)⟩
    | .ok ctxV =>
      if !ctxV.truthy then
        ⟨t, none, false, [], none, some (mealieWrap
          (.recipeValidationError "Task context or recipe_slug missing"))⟩
      else
        match getattr ci t "recipe_slug" with
        | .error e => ⟨t, none, false, [], none, some (mealieWrap e)⟩
        | .ok slugV =>
          if !slugV.truthy then
            ⟨t, none, false, [], none, some (mealieWrap
              (.recipeValidationError "Task context or recipe_slug missing"))⟩
          else
            let parsed : Except PyError (JVal × Bool) :=
              match smart_parse env.localLlm with
              | .ok r => .ok (r, false)
              | .error _ =>
                match ctxV with
                | .vContext ctx => .ok (naive_parse ctx.transcription, true)
                | _ => .error (.attributeError "object has no attribute \x27transcription\x27")
            match parsed with
            | .error e => ⟨t, none, false, [], none, some (mealieWrap e)⟩
            | .ok (recipe, usedFb) =>
              match mealie_parse_ingredients cfg env.parseIngr with
              | .error e => ⟨t, some recipe, usedFb, [], none, some (mealieWrap e)⟩
              | .ok ingredients =>
                llmFinish ci cfg env (setattr t "status" (.vStatus .SAVING))
                  recipe usedFb ingredients

/-- Result of one dequeued task's processing. -/
structure RunResult where
  task : PyTask
  assigned : List TaskStatus
  llmCalled : Bool
  usedRecipe : Option JVal
  usedFallback : Bool
  raised : Option PyError

/-- The try-block of one `_worker_loop` iteration (llm_task_queue.py,
lines 65-87), on the dequeued task: the optional transcription-stage
recipe update (lines 66-81), `_process_llm_task` (line 84, lines
96-112), then `llm_response_to_mealie` bracketed by the SAVING and
COMPLETED status assignments (lines 85-87).  `raised` is the exception
leaving the block, if any. -/
def worker_try (ci : TaskClassInit) (cfg : MealieCfg) (env : TaskEnv)
    (t : PyTask) : RunResult :=
  match getattr ci t "recipe_slug" with
  | .error e => ⟨t, [], false, none, false, some e⟩
  | .ok slugV =>
    let condE : Except PyError Bool :=
      if slugV.truthy then
        match getattr ci t "context" with
        | .error e => .error e
        | .ok ctxV => .ok ctxV.truthy
      else .ok false
    match condE with
    | .error e => ⟨t, [], false, none, false, some e⟩
    | .ok cond =>
      let earlyE : Option PyError :=
        if cond then
          match getattr ci t "original_caption" with
          | .error e => some e
          | .ok _ =>
            match getattr ci t "context" with
            | .error e => some e
            | .ok (.vContext _) =>
              match update_recipe cfg env.update1 with
              | .error e => some e
              | .ok _ => none
            | .ok _ => some (.attributeError "object has no attribute \x27transcription\x27")
        else none
      match earlyE with
      | some e => ⟨t, [], false, none, false, some e⟩
      | none =>
        match getattr ci t "context" with
        | .error e => ⟨t, [], false, none, false, some e⟩
        | .ok ctxV3 =>
          let promptCheck : Option PyError :=
            if !ctxV3.truthy then
              some (.valueError "Task context or prompt is missing")
            else
              match ctxV3 with
              | .vContext ctx =>
                if ctx.prompt.isEmpty then
                  some (.valueError "Task context or prompt is missing")
                else none
              | _ => some (.attributeError "object has no attribute \x27prompt\x27")
          match promptCheck with
          | some e => ⟨t, [], false, none, false, some e⟩
          | none =>
            match call_llm_server env.transport with
            | .error e => ⟨t, [], true, none, false, some e⟩
            | .ok _response =>
              let t1 := setattr t "status" (.vStatus .SAVING)
              let ms := llm_response_to_mealie ci cfg env t1
              match ms.raised with
              | some e =>
                ⟨ms.task, .SAVING :: ms.assigned, true, ms.usedRecipe,
                 ms.usedFallback, some e⟩
              | none =>
                let t2 := setattr ms.task "status" (.vStatus .COMPLETED)
                ⟨t2, .SAVING :: (ms.assigned ++ [.COMPLETED]), true,
                 ms.usedRecipe, ms.usedFallback, none⟩

/-- Outcome of one full `_worker_loop` iteration: `done` when the
iteration finished (normally or through the except handler), `crashed`
when an exception escaped the handler itself and killed the worker
thread. -/
inductive LoopOutcome where
  | done (r : RunResult)
  | crashed (r : RunResult) (e : PyError)

/-- One full `_worker_loop` iteration body on a dequeued task (lines
65-94): the try block, then the except handler (lines 88-91), which
first logs — reading `task.url` — then sets FAILED and records
`str(e)`.  An `AttributeError` raised by the logging read escapes the
handler. -/
def process_task (ci : TaskClassInit) (cfg : MealieCfg) (env : TaskEnv)
    (t : PyTask) : LoopOutcome :=
  let r := worker_try ci cfg env t
  match r.raised with
  | none => .done r
  | some e =>
    match getattr ci r.task "url" with
    | .error e2 => .crashed r e2
    | .ok _ =>
      let t1 := setattr r.task "status" (.vStatus .FAILED)
      let t2 := setattr t1 "error" (.vStr e.toStr)
      .done { r with task := t2, assigned := r.assigned ++ [.FAILED] }

/-- The worker loop over a list of queued tasks, each with the
outcomes of its external calls; returns the per-task results, and the
exception that killed the loop if one escaped the handler. -/
def worker_loop (ci : TaskClassInit) (cfg : MealieCfg) :
    List (PyTask × TaskEnv) → List RunResult × Option PyError
  | [] => ([], none)
  | (t, env) :: rest =>
    match process_task ci cfg env t with
    | .done r =>
      let (rs, c) := worker_loop ci cfg rest
      (r :: rs, c)
    | .crashed r e => ([r], some e)

/-- What `submit_task` returns: the source returns the
`queue.Queue` object itself (line 49), not a number. -/
inductive SubmitRet where
  | queueObj (items : List PyTask)
  | posVal (n : Int)
deriving DecidableEq, Repr

/-- State of an `LLMTaskQueue`: the queued tasks, the
`unfinished_tasks` counter of the underlying `queue.Queue` (incremented
by `put`, decremented by `task_done`), and `current_task`. -/
structure QueueState where
  queue : List PyTask
  unfinished : Nat
  current : Option PyTask

/-- The state after `LLMTaskQueue.__init__` (lines 21-41). -/
def initialQueueState : QueueState := ⟨[], 0, none⟩

/-- Embedding of `submit_task` (llm_task_queue.py, lines 43-49):
assign `queue_position = unfinished_tasks + 1`, `put` the task, and
return `self.task_queue`. -/
def submit_task (st : QueueState) (t : PyTask) : QueueState × SubmitRet :=
  let t2 := setattr t "queue_position" (.vInt (Int.ofNat st.unfinished + 1))
  let st2 : QueueState := ⟨st.queue ++ [t2], st.unfinished + 1, st.current⟩
  (st2, .queueObj st2.queue)

/-- Embedding of `get_queue_status` (lines 51-58).  Task objects are
always truthy, so `self.current_task if self.current_task else None`
is just `self.current_task`. -/
def get_queue_status (st : QueueState) : Nat × List PyTask × Option PyTask :=
  (st.unfinished, st.queue, st.current)

/-- One iteration of `_worker_loop` at queue level: the blocking
`get()` (line 63) dequeues and overwrites `current_task`; the `finally`
block calls `task_done()` (line 94), decrementing the unfinished count,
but `current_task` is never cleared. -/
def worker_step (ci : TaskClassInit) (cfg : MealieCfg) (env : TaskEnv)
    (st : QueueState) : QueueState :=
  match st.queue with
  | [] => st
  | t :: rest =>
    match process_task ci cfg env t with
    | .done r => ⟨rest, st.unfinished - 1, some r.task⟩
    | .crashed r _ => ⟨rest, st.unfinished - 1, some r.task⟩

/-- The candidate JSON span `parse_llm_response` extracts: from the
first `\x7b` to the last `\x7d` of the cleaned text. -/
def braceSpan (s : String) : String :=
  let cs := (cleanupResponse s).toList
  String.mk (pySlice cs (pyFind cs '{').toNat (pyRFind cs '}' + 1).toNat)

/-- The spec-side failure condition for the Structured Parser: the
cleaned text contains no `\x7b`-before-`\x7d` pair, or the enclosed
span is malformed JSON, or the parsed JSON lacks a non-empty (truthy)
`recipeIngredient` or `recipeInstructions` field. -/
def parseFailSpec (s : String) : Prop :=
  (¬ ∃ pre mid post, (cleanupResponse s).toList =
      pre ++ '{' :: (mid ++ '}' :: post)) ∨
  (match jsonLoads (braceSpan s) with
   | none => True
   | some parsed =>
     ¬((parsed.getD "recipeIngredient").truthy = true ∧
       (parsed.getD "recipeInstructions").truthy = true))

/-- Tasks are mutated by the worker only through assignments to
`status` and `error`; this relation closes a task under such
assignments. -/
inductive MutChain (t : PyTask) : PyTask → Prop where
  | base : MutChain t t
  | stepStatus (u : PyTask) (st : TaskStatus) :
      MutChain t u → MutChain t (setattr u "status" (.vStatus st))
  | stepError (u : PyTask) (v : AttrVal) :
      MutChain t u → MutChain t (setattr u "error" v)

/-- The sequence of values `task.status` takes during one processed
task: its value at dequeue time followed by every assignment. -/
def statusTrace (ci : TaskClassInit) (t : PyTask) (r : RunResult) :
    List TaskStatus :=
  taskStatus ci t :: r.assigned

/-- A concrete task context, as the upstream stages would build it. -/
def sampleCtx : TaskContext :=
  ⟨"cap text", "Add 2 eggs. Stir gently.", none, "the prompt"⟩

/-- A fully prepared task: constructed by `Task(url)` and then given
`context`, `recipe_slug` and `original_caption` by upstream code. -/
def readyTask : PyTask :=
  setattr
    (setattr (setattr (Task.init "https://example.com/v") "context"
        (.vContext sampleCtx))
      "recipe_slug" (.vStr "slug-1"))
    "original_caption" (.vStr "cap text")

/-- A complete Mealie configuration. -/
def goodCfg : MealieCfg := ⟨true, true, true⟩

/-- A well-formed LLM reply carrying a complete recipe. -/
def goodReply : String :=
  "\x7b\"name\":\"N\",\"recipeIngredient\":[\"1 egg\"],\"recipeInstructions\":[\x7b\"text\":\"Stir\"\x7d]\x7d"

/-- An environment whose external calls all succeed, with the llama
reply under the caller's control. -/
def envWith (l : Except PyError String) : TaskEnv :=
  ⟨none, .success (.obj []), l, .ok (.arr []), none⟩

/-- An environment whose external calls all succeed. -/
def goodEnv : TaskEnv := envWith (.ok goodReply)

/-- An environment in which the LLM server HTTP exchange fails with a
transport error. -/
def badTransportEnv (m : String) : TaskEnv :=
  { goodEnv with transport := .requestException m }

theorem lookup_assocSet_self (d : List (String × AttrVal)) (k : String)
    (v : AttrVal) : lookupAttr (assocSet d k v) k = some v := by
  induction d with
  | nil => simp [assocSet, lookupAttr]
  | cons kv rest ih =>
    obtain ⟨k2, v2⟩ := kv
    by_cases h : k2 = k
    · simp [assocSet, lookupAttr, h]
    · simpa [assocSet, lookupAttr, h] using ih

theorem lookup_assocSet_ne (d : List (String × AttrVal)) (k k2 : String)
    (v : AttrVal) (h : k2 ≠ k) :
    lookupAttr (assocSet d k v) k2 = lookupAttr d k2 := by
  induction d with
  | nil => simp [assocSet, lookupAttr, Ne.symm h]
  | cons kv rest ih =>
    obtain ⟨k3, v3⟩ := kv
    by_cases h3 : k3 = k
    · subst h3
      simp [assocSet, lookupAttr, Ne.symm h]
    · by_cases h4 : k3 = k2
      · subst h4
        simp [assocSet, lookupAttr, h3]
      · simpa [assocSet, lookupAttr, h3, h4] using ih

theorem getattr_setattr_self (ci : TaskClassInit) (t : PyTask) (k : String)
    (v : AttrVal) : getattr ci (setattr t k v) k = .ok v := by
  simp [getattr, setattr, lookup_assocSet_self]

theorem getattr_setattr_ne (ci : TaskClassInit) (t : PyTask) (k k2 : String)
    (v : AttrVal) (h : k2 ≠ k) :
    getattr ci (setattr t k v) k2 = getattr ci t k2 := by
  simp [getattr, setattr, lookup_assocSet_ne _ _ _ _ h]

theorem taskStatus_setattr_status (ci : TaskClassInit) (t : PyTask)
    (st : TaskStatus) :
    taskStatus ci (setattr t "status" (.vStatus st)) = st := by
  simp [taskStatus, getattr_setattr_self]

theorem taskStatus_setattr_error (ci : TaskClassInit) (t : PyTask)
    (v : AttrVal) : taskStatus ci (setattr t "error" v) = taskStatus ci t := by
  have h : ("status" : String) ≠ "error" := by decide
  simp [taskStatus, getattr_setattr_ne ci _ _ _ _ h]

theorem mutChain_getattr (ci : TaskClassInit) (name : String) {t u : PyTask}
    (hs : name ≠ "status") (he : name ≠ "error") (h : MutChain t u) :
    getattr ci u name = getattr ci t name := by
  induction h with
  | base => rfl
  | stepStatus w st _ ih => rw [getattr_setattr_ne ci w _ _ _ hs, ih]
  | stepError w v _ ih => rw [getattr_setattr_ne ci w _ _ _ he, ih]

theorem llmFinish_fields (ci : TaskClassInit) (cfg : MealieCfg) (env : TaskEnv)
    (t2 : PyTask) (recipe : JVal) (usedFb : Bool) (ingredients : JVal) :
    (llmFinish ci cfg env t2 recipe usedFb ingredients).task = t2 ∧
    (llmFinish ci cfg env t2 recipe usedFb ingredients).assigned = [.SAVING] ∧
    (llmFinish ci cfg env t2 recipe usedFb ingredients).usedRecipe = some recipe ∧
    (llmFinish ci cfg env t2 recipe usedFb ingredients).usedFallback = usedFb := by
  unfold llmFinish
  repeat' split
  all_goals simp

theorem llm_response_cases (ci : TaskClassInit) (cfg : MealieCfg)
    (env : TaskEnv) (t : PyTask) :
    ((llm_response_to_mealie ci cfg env t).task = t ∧
     (llm_response_to_mealie ci cfg env t).assigned = [] ∧
     (llm_response_to_mealie ci cfg env t).raised ≠ none) ∨
    ((llm_response_to_mealie ci cfg env t).task =
        setattr t "status" (.vStatus .SAVING) ∧
     (llm_response_to_mealie ci cfg env t).assigned = [.SAVING]) := by
  unfold llm_response_to_mealie
  repeat any_goals split
  all_goals simp_all [llmFinish_fields]

theorem worker_try_chain (ci : TaskClassInit) (cfg : MealieCfg) (env : TaskEnv)
    (t : PyTask) : MutChain t (worker_try ci cfg env t).task := by
  have hllm := llm_response_cases ci cfg env (setattr t "status" (.vStatus .SAVING))
  unfold worker_try
  repeat any_goals (first | split | (dsimp only))
  all_goals
    first
    | exact MutChain.base
    | (rcases hllm with ⟨h1, _, _⟩ | ⟨h1, _⟩ <;> rw [h1] <;>
        first
        | exact MutChain.stepStatus _ _ MutChain.base
        | exact MutChain.stepStatus _ _ (MutChain.stepStatus _ _ MutChain.base)
        | exact MutChain.stepStatus _ _
            (MutChain.stepStatus _ _ (MutChain.stepStatus _ _ MutChain.base)))

theorem worker_try_main (ci : TaskClassInit) (cfg : MealieCfg) (env : TaskEnv)
    (t : PyTask) :
    ((worker_try ci cfg env t).raised = none →
       (worker_try ci cfg env t).task =
         setattr (llm_response_to_mealie ci cfg env
             (setattr t "status" (.vStatus .SAVING))).task
           "status" (.vStatus .COMPLETED) ∧
       (worker_try ci cfg env t).assigned = [.SAVING, .SAVING, .COMPLETED]) ∧
    (worker_try ci cfg env t).assigned ∈
      ([[], [.SAVING], [.SAVING, .SAVING], [.SAVING, .SAVING, .COMPLETED]] :
        List (List TaskStatus)) := by
  have hllm := llm_response_cases ci cfg env (setattr t "status" (.vStatus .SAVING))
  unfold worker_try
  repeat any_goals (first | split | (dsimp only))
  all_goals rcases hllm with ⟨h1, h2, h3⟩ | ⟨h1, h2⟩
  all_goals simp_all

theorem mealieWrap_http (e : PyError) :
    ∃ c d, mealieWrap e = .httpException c d := by
  cases e <;> simp [mealieWrap]

theorem httpException_toStr_ne (c : Nat) (d : String) :
    (PyError.httpException c d).toStr ≠ "" := by
  simp only [PyError.toStr]
  intro h
  have h2 := congrArg String.data h
  rw [String.data_append, String.data_append] at h2
  simp at h2

theorem getattr_error_toStr (ci : TaskClassInit) (t : PyTask) (name : String)
    (e : PyError) (h : getattr ci t name = .error e) : e.toStr ≠ "" := by
  unfold getattr at h
  split at h
  · exact absurd h (by simp)
  · split at h
    · exact absurd h (by simp)
    · simp only [Except.error.injEq] at h
      subst h
      simp only [PyError.toStr]
      intro h
      have h2 := congrArg String.data h
      rw [String.data_append, String.data_append] at h2
      simp at h2

theorem runMealie_error_http {α : Type} (cfg : MealieCfg)
    (body : Except PyError α) (e : PyError)
    (h : runMealie cfg body = .error e) : ∃ c d, e = .httpException c d := by
  unfold runMealie at h
  split at h
  · obtain ⟨c, d, hw⟩ := mealieWrap_http (.mealieConfigError
      "Mealie configuration is incomplete. Check MEALIE_TOKEN and MEALIE_BASE_URL.")
    simp [hw] at h
    exact ⟨c, d, h.symm⟩
  · split at h
    · obtain ⟨c, d, hw⟩ := mealieWrap_http (.mealieConfigError "Invalid Mealie base URL")
      simp [hw] at h
      exact ⟨c, d, h.symm⟩
    · split at h
      · exact absurd h (by simp)
      · rename_i e0
        obtain ⟨c, d, hw⟩ := mealieWrap_http e0
        simp [hw] at h
        exact ⟨c, d, h.symm⟩

theorem update_recipe_error_http (cfg : MealieCfg) (o : Option PyError)
    (e : PyError) (h : update_recipe cfg o = .error e) :
    ∃ c d, e = .httpException c d :=
  runMealie_error_http cfg _ e h

theorem call_llm_error_toStr (o : TransportOutcome) (e : PyError)
    (h : call_llm_server o = .error e) : e.toStr ≠ "" := by
  cases o <;> simp [call_llm_server] at h <;> subst h <;>
    simp only [PyError.toStr] <;> intro h2 <;>
    (have h3 := congrArg String.data h2; rw [String.data_append] at h3; simp at h3)

theorem llm_raised_http (ci : TaskClassInit) (cfg : MealieCfg) (env : TaskEnv)
    (t : PyTask) (e : PyError)
    (h : (llm_response_to_mealie ci cfg env t).raised = some e) :
    ∃ c d, e = .httpException c d := by
  unfold llm_response_to_mealie llmFinish at h
  repeat any_goals (first | split at h | (dsimp only at h))
  all_goals first
    | (simp only [Option.some.injEq] at h; rw [← h]; exact mealieWrap_http _)
    | simp at h

theorem worker_try_raised_toStr (ci : TaskClassInit) (cfg : MealieCfg)
    (env : TaskEnv) (t : PyTask) (e : PyError)
    (h : (worker_try ci cfg env t).raised = some e) : e.toStr ≠ "" := by
  unfold worker_try at h
  repeat any_goals (first | split at h | (dsimp only at h))
  all_goals (try simp only [Option.some.injEq] at h)
  all_goals (try subst h)
  all_goals first
    | exact getattr_error_toStr _ _ _ _ (by assumption)
    | exact call_llm_error_toStr _ _ (by assumption)
    | decide
    | (obtain ⟨c, d, hw⟩ := update_recipe_error_http _ _ _ (by assumption);
       subst hw; exact httpException_toStr_ne _ _)
    | (obtain ⟨c, d, hw⟩ := llm_raised_http _ _ _ _ _ (by assumption);
       subst hw; exact httpException_toStr_ne _ _)
    | simp at h
    | (rename_i x2 e2 heq2;
       split at heq2 <;>
         first
         | (simp only [Option.some.injEq] at heq2;
            first
            | exact heq2 ▸ getattr_error_toStr _ _ _ _ (by assumption)
            | exact heq2 ▸ call_llm_error_toStr _ _ (by assumption)
            | (obtain ⟨c, d, hw⟩ := update_recipe_error_http _ _ _ (by assumption);
               rw [← heq2, hw]; exact httpException_toStr_ne _ _)
            | (rw [← heq2]; decide))
         | simp at heq2)

theorem process_task_of_raised (ci : TaskClassInit) (cfg : MealieCfg)
    (env : TaskEnv) (t : PyTask) (u : AttrVal) (e : PyError)
    (hurl : getattr ci t "url" = .ok u)
    (hraise : (worker_try ci cfg env t).raised = some e) :
    ∃ r, process_task ci cfg env t = .done r ∧
      taskStatus ci r.task = .FAILED ∧
      getattr ci r.task "error" = .ok (.vStr e.toStr) ∧
      r.assigned = (worker_try ci cfg env t).assigned ++ [.FAILED] ∧
      r.llmCalled = (worker_try ci cfg env t).llmCalled ∧
      r.usedRecipe = (worker_try ci cfg env t).usedRecipe ∧
      r.usedFallback = (worker_try ci cfg env t).usedFallback := by
  have hchain := worker_try_chain ci cfg env t
  have hu2 : getattr ci (worker_try ci cfg env t).task "url" = .ok u := by
    rw [mutChain_getattr ci "url" (by decide) (by decide) hchain]
    exact hurl
  unfold process_task
  dsimp only
  rw [hraise, hu2]
  refine ⟨_, rfl, ?_, ?_, rfl, rfl, rfl, rfl⟩
  · rw [taskStatus_setattr_error, taskStatus_setattr_status]
  · exact getattr_setattr_self _ _ _ _

theorem process_task_of_none (ci : TaskClassInit) (cfg : MealieCfg)
    (env : TaskEnv) (t : PyTask)
    (hnone : (worker_try ci cfg env t).raised = none) :
    process_task ci cfg env t = .done (worker_try ci cfg env t) := by
  unfold process_task
  dsimp only
  rw [hnone]

/-- With all external calls succeeding and a fully prepared task, the
pipeline runs to COMPLETED. -/
theorem goodRun (ci : TaskClassInit) :
    ∃ r2, process_task ci goodCfg goodEnv readyTask = .done r2 ∧
      taskStatus ci r2.task = .COMPLETED :=
  ⟨_, rfl, rfl⟩

/-- C6: parsing the fenced example text strips the code-fence markers,
parses the first-brace/last-brace span, and normalizes the non-object
instruction entries into text objects, yielding exactly the expected
recipe object. -/
theorem c6_structured_parse_example :
    cleanupResponse "```json \x7b\"name\":\"X\",\"recipeIngredient\":[\"1 cup flour\"],\"recipeInstructions\":[\"Mix well\"]\x7d ```"
      = " \x7b\"name\":\"X\",\"recipeIngredient\":[\"1 cup flour\"],\"recipeInstructions\":[\"Mix well\"]\x7d " ∧
    smart_parse (.ok "```json \x7b\"name\":\"X\",\"recipeIngredient\":[\"1 cup flour\"],\"recipeInstructions\":[\"Mix well\"]\x7d ```")
      = .ok (.obj
          [("name", .str "X"),
           ("recipeIngredient", .arr [.str "1 cup flour"]),
           ("recipeInstructions", .arr [.obj [("text", .str "Mix well")]])]) :=
  ⟨rfl, rfl⟩

/-- C10 (the code side): the `id` default is evaluated once, when the
`Task` class body runs, and the hand-written `__init__` never assigns
it, so any two tasks — even distinct instances made from different
urls — resolve `id` to the same class-level constant. -/
theorem c10_task_ids_all_equal (ci : TaskClassInit) :
    Task.init "https://a.example/1" ≠ Task.init "https://b.example/2" ∧
    getattr ci (Task.init "https://a.example/1") "id" = .ok (.vInt ci.idMs) ∧
    getattr ci (Task.init "https://b.example/2") "id" = .ok (.vInt ci.idMs) := by
  refine ⟨by decide, ?_, ?_⟩ <;> rfl

/-- C1: if processing a dequeued task raises an exception out of the
pipeline (e.g. an LLM-server transport error or a store error), the
task ends FAILED with the non-empty `str(e)` recorded in `error`, the
worker proceeds to the next queued task, and that next task can still
reach COMPLETED: one failure never halts the loop. -/
theorem c1_loop_survives_one_failure (ci : TaskClassInit) (env : TaskEnv)
    (t : PyTask) (u : AttrVal) (e : PyError)
    (hurl : getattr ci t "url" = .ok u)
    (hraise : (worker_try ci goodCfg env t).raised = some e) :
    ∃ r r2,
      worker_loop ci goodCfg [(t, env), (readyTask, goodEnv)] = ([r, r2], none) ∧
      taskStatus ci r.task = .FAILED ∧
      getattr ci r.task "error" = .ok (.vStr e.toStr) ∧
      e.toStr ≠ "" ∧
      taskStatus ci r2.task = .COMPLETED := by
  obtain ⟨r, hdone, hst, herr, _⟩ := process_task_of_raised ci goodCfg env t u e hurl hraise
  obtain ⟨r2, hdone2, hst2⟩ := goodRun ci
  refine ⟨r, r2, ?_, hst, herr, worker_try_raised_toStr _ _ _ _ _ hraise, hst2⟩
  unfold worker_loop
  rw [hdone]
  unfold worker_loop
  rw [hdone2]
  rfl

/-- Witness for C1 at a concrete input: a fully prepared task whose
LLM-server exchange fails with a transport error, followed by a
healthy task. -/
theorem c1_loop_survives_one_failure_witness :
    ∃ r r2,
      worker_loop ⟨0, 0, 0⟩ goodCfg
          [(readyTask, badTransportEnv "boom"), (readyTask, goodEnv)] =
        ([r, r2], none) ∧
      taskStatus ⟨0, 0, 0⟩ r.task = .FAILED ∧
      getattr ⟨0, 0, 0⟩ r.task "error" =
        .ok (.vStr ((PyError.llmServerRequestError
          "Failed to get response from LLM server: boom").toStr)) ∧
      (PyError.llmServerRequestError
        "Failed to get response from LLM server: boom").toStr ≠ "" ∧
      taskStatus ⟨0, 0, 0⟩ r2.task = .COMPLETED :=
  c1_loop_survives_one_failure ⟨0, 0, 0⟩ (badTransportEnv "boom") readyTask
    (.vStr "https://example.com/v")
    (.llmServerRequestError "Failed to get response from LLM server: boom")
    rfl rfl

/-- C2: `Task(url)` sets only `url` on the instance; `context`,
`recipe_slug` and `original_caption` are all unset (the latter two are
not even dataclass fields), so the worker's first attribute access
(`task.recipe_slug`) raises `AttributeError`, the task is FAILED with
that error recorded, and no LLM call is ever made — such a task can
never reach COMPLETED. -/
theorem c2_bare_task_always_fails (ci : TaskClassInit) (cfg : MealieCfg)
    (env : TaskEnv) (url : String) :
    (Task.init url).dict = [("url", .vStr url)] ∧
    getattr ci (Task.init url) "context" =
      .error (.attributeError
        "\x27Task\x27 object has no attribute \x27context\x27") ∧
    getattr ci (Task.init url) "recipe_slug" =
      .error (.attributeError
        "\x27Task\x27 object has no attribute \x27recipe_slug\x27") ∧
    getattr ci (Task.init url) "original_caption" =
      .error (.attributeError
        "\x27Task\x27 object has no attribute \x27original_caption\x27") ∧
    ∃ r, process_task ci cfg env (Task.init url) = .done r ∧
      taskStatus ci r.task = .FAILED ∧
      taskStatus ci r.task ≠ .COMPLETED ∧
      r.llmCalled = false ∧
      getattr ci r.task "error" =
        .ok (.vStr "\x27Task\x27 object has no attribute \x27recipe_slug\x27") := by
  refine ⟨rfl, rfl, rfl, rfl, ?_⟩
  have hurl : getattr ci (Task.init url) "url" = .ok (.vStr url) := rfl
  have hraise : (worker_try ci cfg env (Task.init url)).raised =
      some (.attributeError
        "\x27Task\x27 object has no attribute \x27recipe_slug\x27") := rfl
  obtain ⟨r, hdone, hst, herr, _, hllm, _⟩ :=
    process_task_of_raised ci cfg env (Task.init url) _ _ hurl hraise
  refine ⟨r, hdone, hst, by rw [hst]; decide, ?_, herr⟩
  rw [hllm]
  rfl

theorem process_task_done_terminal (ci : TaskClassInit) (cfg : MealieCfg)
    (env : TaskEnv) (t : PyTask) (u : AttrVal)
    (hurl : getattr ci t "url" = .ok u) :
    ∃ r, process_task ci cfg env t = .done r ∧
      (taskStatus ci r.task = .COMPLETED ∨ taskStatus ci r.task = .FAILED) := by
  cases hr : (worker_try ci cfg env t).raised with
  | none =>
    obtain ⟨htask, _⟩ := (worker_try_main ci cfg env t).1 hr
    refine ⟨_, process_task_of_none ci cfg env t hr, Or.inl ?_⟩
    rw [htask, taskStatus_setattr_status]
  | some e =>
    obtain ⟨r, hdone, hst, _⟩ := process_task_of_raised ci cfg env t u e hurl hr
    exact ⟨r, hdone, Or.inr hst⟩

/-- C7 counterexample: `submit_task` does not return the assigned
queue position (on the first submission, position 1): it returns the
queue object itself. -/
theorem c7_counterexample :
    (submit_task initialQueueState (Task.init "A")).2 ≠ SubmitRet.posVal 1 := by
  decide

/-- C7 as amended: `submit_task` appends the task to the tail of the
FIFO queue, records `queue_position = unfinished_tasks + 1` on the
task, and returns the queue object itself (from which the caller could
read the position) without blocking; submitting A, B, C in order from
the initial state yields a snapshot with `queue_count = 3` and queued
tasks A, B, C carrying positions 1, 2, 3. -/
theorem c7_submit_appends_and_returns_queue (ci : TaskClassInit)
    (st : QueueState) (t : PyTask) :
    (submit_task st t).1.queue =
      st.queue ++ [setattr t "queue_position" (.vInt (Int.ofNat st.unfinished + 1))] ∧
    (submit_task st t).1.unfinished = st.unfinished + 1 ∧
    getattr ci (setattr t "queue_position" (.vInt (Int.ofNat st.unfinished + 1)))
        "queue_position" = .ok (.vInt (Int.ofNat st.unfinished + 1)) ∧
    (submit_task st t).2 = .queueObj ((submit_task st t).1.queue) ∧
    ((get_queue_status (submit_task (submit_task (submit_task
        initialQueueState (Task.init "A")).1 (Task.init "B")).1
        (Task.init "C")).1).1 = 3 ∧
     ((get_queue_status (submit_task (submit_task (submit_task
        initialQueueState (Task.init "A")).1 (Task.init "B")).1
        (Task.init "C")).1).2.1).map
        (fun tk => getattr ci tk "queue_position") =
       [.ok (.vInt 1), .ok (.vInt 2), .ok (.vInt 3)] ∧
     ((get_queue_status (submit_task (submit_task (submit_task
        initialQueueState (Task.init "A")).1 (Task.init "B")).1
        (Task.init "C")).1).2.1).map (fun tk => getattr ci tk "url") =
       [.ok (.vStr "A"), .ok (.vStr "B"), .ok (.vStr "C")]) :=
  ⟨rfl, rfl, getattr_setattr_self ci t _ _, rfl, rfl, rfl, rfl⟩

/-- C9 counterexample: after the worker finishes the only queued task
(here a bare task that fails), the queue is empty and nothing is being
processed, yet the snapshot still reports the finished task — with
terminal status — as currently processing; `current_task` is never
cleared. -/
theorem c9_counterexample :
    ∃ tk, worker_step ⟨0, 0, 0⟩ goodCfg goodEnv ⟨[Task.init "x"], 1, none⟩ =
        ⟨[], 0, some tk⟩ ∧
      taskStatus ⟨0, 0, 0⟩ tk = .FAILED ∧
      (get_queue_status (worker_step ⟨0, 0, 0⟩ goodCfg goodEnv
          ⟨[Task.init "x"], 1, none⟩)).2.2 = some tk ∧
      some tk ≠ (none : Option PyTask) :=
  ⟨_, rfl, rfl, rfl, by simp⟩

/-- C9 as amended: when the worker dequeues a task it becomes the only
"current" task (the field holds at most one task by construction), and
on completion or failure the worker does not clear it: the finished
task — in a terminal state — remains the reported `current_task` until
the next dequeue replaces it. -/
theorem c9_current_keeps_finished_task (ci : TaskClassInit) (cfg : MealieCfg)
    (env : TaskEnv) (st : QueueState) (t : PyTask) (rest : List PyTask)
    (u : AttrVal) (hq : st.queue = t :: rest)
    (hurl : getattr ci t "url" = .ok u) :
    ∃ r, process_task ci cfg env t = .done r ∧
      worker_step ci cfg env st = ⟨rest, st.unfinished - 1, some r.task⟩ ∧
      (get_queue_status (worker_step ci cfg env st)).2.2 = some r.task ∧
      (taskStatus ci r.task = .COMPLETED ∨ taskStatus ci r.task = .FAILED) := by
  obtain ⟨r, hdone, hterm⟩ := process_task_done_terminal ci cfg env t u hurl
  have hstep : worker_step ci cfg env st = ⟨rest, st.unfinished - 1, some r.task⟩ := by
    unfold worker_step
    rw [hq]
    dsimp only
    rw [hdone]
  exact ⟨r, hdone, hstep, by rw [hstep]; rfl, hterm⟩

/-- Witness for C9 as amended, at a concrete one-task queue. -/
theorem c9_current_keeps_finished_task_witness :
    ∃ r, process_task ⟨0, 0, 0⟩ goodCfg goodEnv readyTask = .done r ∧
      worker_step ⟨0, 0, 0⟩ goodCfg goodEnv ⟨[readyTask], 1, none⟩ =
        ⟨[], 0, some r.task⟩ ∧
      (get_queue_status (worker_step ⟨0, 0, 0⟩ goodCfg goodEnv
          ⟨[readyTask], 1, none⟩)).2.2 = some r.task ∧
      (taskStatus ⟨0, 0, 0⟩ r.task = .COMPLETED ∨
       taskStatus ⟨0, 0, 0⟩ r.task = .FAILED) :=
  c9_current_keeps_finished_task ⟨0, 0, 0⟩ goodCfg goodEnv
    ⟨[readyTask], 1, none⟩ readyTask [] (.vStr "https://example.com/v") rfl rfl

/-- C8 counterexample: on a fully successful run the worker makes the
LLM call while `status` is still PROCESSING and never sets GENERATING;
the recorded status history is PROCESSING, SAVING, SAVING, COMPLETED —
skipping TRANSCRIBING, WAITING and GENERATING entirely. -/
theorem c8_counterexample :
    ∃ r, process_task ⟨0, 0, 0⟩ goodCfg goodEnv readyTask = .done r ∧
      r.llmCalled = true ∧
      statusTrace ⟨0, 0, 0⟩ readyTask r =
        [.PROCESSING, .SAVING, .SAVING, .COMPLETED] ∧
      TaskStatus.GENERATING ∉ statusTrace ⟨0, 0, 0⟩ readyTask r :=
  ⟨_, rfl, rfl, rfl, by decide⟩

/-- C8 as amended: for a freshly constructed task (no instance
`status`, so it starts at the class default PROCESSING) whose `url`
is set, the worker-processed status history is forward-only in the
state-graph order — but it skips intermediate states (going straight
to SAVING), never contains GENERATING, and ends in exactly COMPLETED
or FAILED. -/
theorem c8_forward_only_with_skips (ci : TaskClassInit) (cfg : MealieCfg)
    (env : TaskEnv) (t : PyTask) (u : AttrVal) (r : RunResult)
    (hstat : lookupAttr t.dict "status" = none)
    (hurl : getattr ci t "url" = .ok u)
    (hdone : process_task ci cfg env t = .done r) :
    taskStatus ci t = .PROCESSING ∧
    List.Chain' (fun a b => a.rank ≤ b.rank) (statusTrace ci t r) ∧
    ((statusTrace ci t r).getLast? = some .COMPLETED ∨
     (statusTrace ci t r).getLast? = some .FAILED) ∧
    TaskStatus.GENERATING ∉ statusTrace ci t r := by
  have hinit : taskStatus ci t = .PROCESSING := by
    unfold taskStatus getattr
    rw [hstat]
    rfl
  refine ⟨hinit, ?_⟩
  have htr : statusTrace ci t r = .PROCESSING :: r.assigned := by
    unfold statusTrace
    rw [hinit]
  rw [htr]
  cases hr : (worker_try ci cfg env t).raised with
  | none =>
    have heq := process_task_of_none ci cfg env t hr
    rw [heq] at hdone
    cases hdone
    obtain ⟨_, hassign⟩ := (worker_try_main ci cfg env t).1 hr
    rw [hassign]
    exact ⟨by simp [List.chain'_cons, TaskStatus.rank], Or.inl (by decide),
      by decide⟩
  | some e =>
    obtain ⟨r2, hdone2, _, _, hassign, _⟩ :=
      process_task_of_raised ci cfg env t u e hurl hr
    rw [hdone2] at hdone
    cases hdone
    rw [hassign]
    have hmem := (worker_try_main ci cfg env t).2
    simp only [List.mem_cons, List.not_mem_nil, or_false] at hmem
    rcases hmem with h4 | h4 | h4 | h4 <;>
      (rw [h4];
       exact ⟨by simp [List.chain'_cons, TaskStatus.rank], Or.inr (by decide),
         by decide⟩)

/-- Witness for C8 as amended, at a concrete successful run. -/
theorem c8_forward_only_with_skips_witness :
    ∃ r, process_task ⟨0, 0, 0⟩ goodCfg goodEnv readyTask = .done r ∧
      (taskStatus ⟨0, 0, 0⟩ readyTask = .PROCESSING ∧
       List.Chain' (fun a b => a.rank ≤ b.rank)
         (statusTrace ⟨0, 0, 0⟩ readyTask r) ∧
       ((statusTrace ⟨0, 0, 0⟩ readyTask r).getLast? = some .COMPLETED ∨
        (statusTrace ⟨0, 0, 0⟩ readyTask r).getLast? = some .FAILED) ∧
       TaskStatus.GENERATING ∉ statusTrace ⟨0, 0, 0⟩ readyTask r) :=
  ⟨_, rfl, c8_forward_only_with_skips ⟨0, 0, 0⟩ goodCfg goodEnv readyTask
    (.vStr "https://example.com/v") _ rfl rfl rfl⟩

/-- C4: when the Structured Parser fails on an LLM response (for any
reason), the worker silently and unconditionally falls back to the
Fallback Parser on the task's raw transcription and the task still
completes — the parse failure never becomes a task failure; conversely
when the LLM-server call itself fails, no fallback parsing happens at
all and the whole task fails with the transport error recorded. -/
theorem c4_fallback_on_parse_failure_only (ci : TaskClassInit) :
    (∀ l pe, smart_parse l = .error pe →
      ∃ r, process_task ci goodCfg (envWith l) readyTask = .done r ∧
        r.usedFallback = true ∧
        r.usedRecipe = some (naive_parse sampleCtx.transcription) ∧
        taskStatus ci r.task = .COMPLETED) ∧
    (∀ o e, call_llm_server o = .error e →
      ∃ r, process_task ci goodCfg { goodEnv with transport := o }
          readyTask = .done r ∧
        r.llmCalled = true ∧ r.usedRecipe = none ∧ r.usedFallback = false ∧
        taskStatus ci r.task = .FAILED ∧
        getattr ci r.task "error" = .ok (.vStr e.toStr)) := by
  constructor
  · intro l pe h
    have hllm : llm_response_to_mealie ci goodCfg (envWith l)
        (setattr readyTask "status" (.vStatus .SAVING)) =
        llmFinish ci goodCfg (envWith l)
          (setattr (setattr readyTask "status" (.vStatus .SAVING)) "status"
            (.vStatus .SAVING))
          (naive_parse sampleCtx.transcription) true (.arr []) := by
      unfold llm_response_to_mealie
      rw [show (envWith l).localLlm = l from rfl, h]
      rfl
    have hwt : worker_try ci goodCfg (envWith l) readyTask =
        ⟨setattr (setattr (setattr readyTask "status" (.vStatus .SAVING))
            "status" (.vStatus .SAVING)) "status" (.vStatus .COMPLETED),
         [.SAVING, .SAVING, .COMPLETED], true,
         some (naive_parse sampleCtx.transcription), true, none⟩ := by
      unfold worker_try
      dsimp only
      rw [hllm]
      rfl
    refine ⟨worker_try ci goodCfg (envWith l) readyTask,
      process_task_of_none ci goodCfg (envWith l) readyTask (by rw [hwt]),
      by rw [hwt], by rw [hwt], by rw [hwt]; rfl⟩
  · intro o e h
    have hwt : worker_try ci goodCfg { goodEnv with transport := o } readyTask =
        ⟨readyTask, [], true, none, false, some e⟩ := by
      unfold worker_try
      dsimp only
      rw [h]
      rfl
    obtain ⟨r, hdone, hst, herr, _, hllmc, hrec, hfb⟩ :=
      process_task_of_raised ci goodCfg { goodEnv with transport := o }
        readyTask (.vStr "https://example.com/v") e rfl (by rw [hwt])
    refine ⟨r, hdone, ?_, ?_, ?_, hst, herr⟩
    · rw [hllmc, hwt]
    · rw [hrec, hwt]
    · rw [hfb, hwt]

/-- Witness for C4: a reply with no recipe JSON triggers the fallback
and the task completes; a transport failure fails the task with no
fallback. -/
theorem c4_fallback_on_parse_failure_only_witness :
    (∃ r, process_task ⟨0, 0, 0⟩ goodCfg (envWith (.ok "no json here"))
        readyTask = .done r ∧
      r.usedFallback = true ∧
      r.usedRecipe = some (naive_parse sampleCtx.transcription) ∧
      taskStatus ⟨0, 0, 0⟩ r.task = .COMPLETED) ∧
    (∃ r, process_task ⟨0, 0, 0⟩ goodCfg
        { goodEnv with transport := .requestException "boom" }
        readyTask = .done r ∧
      r.llmCalled = true ∧ r.usedRecipe = none ∧ r.usedFallback = false ∧
      taskStatus ⟨0, 0, 0⟩ r.task = .FAILED ∧
      getattr ⟨0, 0, 0⟩ r.task "error" = .ok (.vStr ((PyError.llmServerRequestError
        "Failed to get response from LLM server: boom").toStr))) :=
  ⟨(c4_fallback_on_parse_failure_only ⟨0, 0, 0⟩).1 (.ok "no json here")
      (.valueError "Invalid or empty recipe structure") rfl,
   (c4_fallback_on_parse_failure_only ⟨0, 0, 0⟩).2 (.requestException "boom")
      (.llmServerRequestError "Failed to get response from LLM server: boom") rfl⟩

theorem filter_not_contains (lines : List String) (p : String → Bool) :
    lines.filter (fun l => !(lines.filter p).contains l) =
      lines.filter (fun l => !p l) := by
  apply List.filter_congr
  intro x hx
  by_cases hp : p x = true
  · simp [List.elem_iff, List.mem_filter, hx, hp]
  · simp [List.elem_iff, List.mem_filter, hp]

theorem naive_parse_unfold (text : String) :
    naive_parse text = .obj
      [("name", .str "Recipe from Social Media video"),
       ("recipeIngredient", .arr
         (if ((sentenceFragments text).filter
              (fun l => l.toList.any Char.isDigit)).isEmpty
          then [.str "See transcription"]
          else ((sentenceFragments text).filter
              (fun l => l.toList.any Char.isDigit)).map JVal.str)),
       ("recipeInstructions", .arr
         (((sentenceFragments text).filter
             (fun l => !(l.toList.any Char.isDigit))).map
           (fun step => .obj [("text", .str step)])))] := by
  unfold naive_parse
  dsimp only
  rw [filter_not_contains]

theorem getD_obj3 (a b c : JVal) :
    (JVal.obj [("name", a), ("recipeIngredient", b),
        ("recipeInstructions", c)]).getD "name" = a ∧
    (JVal.obj [("name", a), ("recipeIngredient", b),
        ("recipeInstructions", c)]).getD "recipeIngredient" = b ∧
    (JVal.obj [("name", a), ("recipeIngredient", b),
        ("recipeInstructions", c)]).getD "recipeInstructions" = c :=
  ⟨rfl, rfl, rfl⟩

/-- C3: `naive_parse` is total and deterministic; for every input it
classifies each trimmed sentence fragment with a numeral as an
ingredient and every other fragment as an instruction, always returns
the placeholder name, a non-empty ingredient list (the placeholder
entry when no fragment qualifies), and an instruction list whose every
entry is `\x7btext: fragment\x7d`; the empty string and the
three-sentence example evaluate exactly as the spec states. -/
theorem c3_naive_parse_total_classifier :
    (∀ text,
      (naive_parse text).getD "name" = .str "Recipe from Social Media video" ∧
      (∃ xs, (naive_parse text).getD "recipeIngredient" = .arr xs ∧ xs ≠ []) ∧
      (naive_parse text).getD "recipeInstructions" =
        .arr (((sentenceFragments text).filter
            (fun l => !(l.toList.any Char.isDigit))).map
          (fun s => .obj [("text", .str s)])) ∧
      (((sentenceFragments text).filter (fun l => l.toList.any Char.isDigit)) ≠ [] →
        (naive_parse text).getD "recipeIngredient" =
          .arr (((sentenceFragments text).filter
              (fun l => l.toList.any Char.isDigit)).map JVal.str)) ∧
      (((sentenceFragments text).filter (fun l => l.toList.any Char.isDigit)) = [] →
        (naive_parse text).getD "recipeIngredient" =
          .arr [.str "See transcription"])) ∧
    naive_parse "" = .obj
      [("name", .str "Recipe from Social Media video"),
       ("recipeIngredient", .arr [.str "See transcription"]),
       ("recipeInstructions", .arr [])] ∧
    naive_parse "Add 2 eggs. Stir gently. Bake for 20 minutes." = .obj
      [("name", .str "Recipe from Social Media video"),
       ("recipeIngredient", .arr [.str "Add 2 eggs", .str "Bake for 20 minutes"]),
       ("recipeInstructions", .arr [.obj [("text", .str "Stir gently")]])] := by
  refine ⟨?_, rfl, rfl⟩
  intro text
  rw [naive_parse_unfold]
  refine ⟨(getD_obj3 _ _ _).1, ?_, (getD_obj3 _ _ _).2.2, ?_, ?_⟩
  · rw [(getD_obj3 _ _ _).2.1]
    by_cases hq : ((sentenceFragments text).filter
        (fun l => l.toList.any Char.isDigit)) = []
    · rw [hq]
      exact ⟨[.str "See transcription"], rfl, by simp⟩
    · have hE : ((sentenceFragments text).filter
          (fun l => l.toList.any Char.isDigit)).isEmpty = false := by
        cases hE2 : ((sentenceFragments text).filter
            (fun l => l.toList.any Char.isDigit)).isEmpty
        · rfl
        · exact absurd (List.isEmpty_iff.mp hE2) hq
      rw [hE]
      refine ⟨((sentenceFragments text).filter
          (fun l => l.toList.any Char.isDigit)).map JVal.str, by simp, ?_⟩
      simp only [ne_eq, List.map_eq_nil_iff]
      exact hq
  · intro hq
    have hE : ((sentenceFragments text).filter
        (fun l => l.toList.any Char.isDigit)).isEmpty = false := by
      cases hE2 : ((sentenceFragments text).filter
          (fun l => l.toList.any Char.isDigit)).isEmpty
      · rfl
      · exact absurd (List.isEmpty_iff.mp hE2) hq
    rw [(getD_obj3 _ _ _).2.1, hE]
    simp
  · intro hq
    rw [(getD_obj3 _ _ _).2.1, hq]
    rfl

/-- Witness for C3 at concrete inputs: one fragment with a numeral
becomes the ingredient list, and an input with no numeral yields the
placeholder. -/
theorem c3_naive_parse_total_classifier_witness :
    (naive_parse "Add 2 eggs.").getD "recipeIngredient" =
      .arr [.str "Add 2 eggs"] ∧
    (naive_parse "Stir gently.").getD "recipeIngredient" =
      .arr [.str "See transcription"] :=
  ⟨(c3_naive_parse_total_classifier.1 "Add 2 eggs.").2.2.2.1 (by decide),
   (c3_naive_parse_total_classifier.1 "Stir gently.").2.2.2.2 rfl⟩

theorem findChar_append (c : Char) (pre post : List Char) :
    ∃ k, findChar c (pre ++ c :: post) = some k ∧ k ≤ pre.length := by
  induction pre with
  | nil => exact ⟨0, by simp [findChar], by simp⟩
  | cons x xs ih =>
    obtain ⟨k, hk, hle⟩ := ih
    by_cases hx : x = c
    · exact ⟨0, by simp [findChar, hx], by simp⟩
    · exact ⟨k + 1, by simp [findChar, hx, hk], by simpa using Nat.succ_le_succ hle⟩

theorem rfindChar_append (c : Char) (pre post : List Char) :
    ∃ k, rfindChar c (pre ++ c :: post) = some k ∧ pre.length ≤ k := by
  induction pre with
  | nil =>
    cases hr : rfindChar c post with
    | none => exact ⟨0, by simp [rfindChar, hr], by simp⟩
    | some i => exact ⟨i + 1, by simp [rfindChar, hr], by simp⟩
  | cons x xs ih =>
    obtain ⟨k, hk, hle⟩ := ih
    exact ⟨k + 1, by simp [rfindChar, hk], by simpa using Nat.succ_le_succ hle⟩

theorem findChar_some (c : Char) (cs : List Char) (k : Nat)
    (h : findChar c cs = some k) :
    ∃ pre post, cs = pre ++ c :: post ∧ pre.length = k := by
  induction cs generalizing k with
  | nil => simp [findChar] at h
  | cons x xs ih =>
    by_cases hx : x = c
    · simp only [findChar, if_pos hx, Option.some.injEq] at h
      exact ⟨[], xs, by simp [hx], by simp [← h]⟩
    · simp only [findChar, if_neg hx, Option.map_eq_some'] at h
      obtain ⟨i, hi, hik⟩ := h
      obtain ⟨pre, post, hcs, hlen⟩ := ih i hi
      exact ⟨x :: pre, post, by simp [hcs], by simp [hlen, ← hik]⟩

theorem rfindChar_some (c : Char) (cs : List Char) (k : Nat)
    (h : rfindChar c cs = some k) :
    ∃ pre post, cs = pre ++ c :: post ∧ pre.length = k := by
  induction cs generalizing k with
  | nil => simp [rfindChar] at h
  | cons x xs ih =>
    cases hr : rfindChar c xs with
    | some i =>
      rw [rfindChar, hr] at h
      simp only [Option.some.injEq] at h
      obtain ⟨pre, post, hcs, hlen⟩ := ih i hr
      exact ⟨x :: pre, post, by simp [hcs], by simp [hlen, ← h]⟩
    | none =>
      rw [rfindChar, hr] at h
      by_cases hx : x = c
      · rw [if_pos hx] at h
        simp only [Option.some.injEq] at h
        exact ⟨[], xs, by simp [hx], by simp [← h]⟩
      · rw [if_neg hx] at h
        cases h

theorem split_two (pre1 post1 pre2 post2 : List Char) (a b : Char)
    (h : pre1 ++ a :: post1 = pre2 ++ b :: post2)
    (hlt : pre1.length < pre2.length) :
    ∃ mid, post1 = mid ++ b :: post2 := by
  induction pre1 generalizing pre2 with
  | nil =>
    cases pre2 with
    | nil => simp at hlt
    | cons y ys =>
      simp only [List.nil_append, List.cons_append, List.cons.injEq] at h
      exact ⟨ys, h.2⟩
  | cons x xs ih =>
    cases pre2 with
    | nil => simp at hlt
    | cons y ys =>
      simp only [List.cons_append, List.cons.injEq] at h
      exact ih ys h.2 (by simpa using Nat.lt_of_succ_lt_succ (by simpa using hlt))

theorem braceCond_iff (cs : List Char) :
    (0 ≤ pyFind cs '{' ∧ pyFind cs '{' < pyRFind cs '}' + 1) ↔
    (∃ pre mid post, cs = pre ++ '{' :: (mid ++ '}' :: post)) := by
  constructor
  · rintro ⟨h1, h2⟩
    cases hf : findChar '{' cs with
    | none =>
      rw [pyFind, hf] at h1
      simp at h1
    | some i =>
      cases hr : rfindChar '}' cs with
      | none =>
        rw [pyFind, hf] at h1 h2
        rw [pyRFind, hr] at h2
        simp only [Int.ofNat_eq_natCast] at h1 h2
        omega
      | some j =>
        rw [pyFind, hf] at h2
        rw [pyRFind, hr] at h2
        simp only [Int.ofNat_eq_natCast] at h2
        have hij : i ≤ j := by omega
        obtain ⟨pre1, post1, hcs1, hlen1⟩ := findChar_some _ _ _ hf
        obtain ⟨pre2, post2, hcs2, hlen2⟩ := rfindChar_some _ _ _ hr
        by_cases hijeq : pre1.length = pre2.length
        · exfalso
          have := List.append_inj (hcs1.symm.trans hcs2) hijeq
          simp at this
        · have hlt : pre1.length < pre2.length := by omega
          obtain ⟨mid, hmid⟩ :=
            split_two pre1 post1 pre2 post2 '{' '}' (hcs1.symm.trans hcs2) hlt
          exact ⟨pre1, mid, post2, by rw [hcs1, hmid]⟩
  · rintro ⟨pre, mid, post, rfl⟩
    obtain ⟨i, hf, hle⟩ := findChar_append '{' pre (mid ++ '}' :: post)
    have hassoc : pre ++ '{' :: (mid ++ '}' :: post) =
        (pre ++ '{' :: mid) ++ '}' :: post := by simp
    obtain ⟨j, hr, hge⟩ := rfindChar_append '}' (pre ++ '{' :: mid) post
    rw [← hassoc] at hr
    have hlen : (pre ++ '{' :: mid).length = pre.length + 1 + mid.length := by
      simp
      omega
    constructor
    · rw [pyFind, hf]
      simp only [Int.ofNat_eq_natCast]
      omega
    · rw [pyFind, hf, pyRFind, hr]
      simp only [Int.ofNat_eq_natCast]
      omega

end UrlToMealie

namespace UrlToMealie

/-- C5: the Structured Parser fails exactly when the cleaned text has
no brace-enclosed span, or that span is malformed JSON, or the parsed
JSON lacks a truthy (non-empty) `recipeIngredient` or
`recipeInstructions`; every such failure is raised as `ValueError` (of
which `json.JSONDecodeError` is a subclass) — a single type distinct
from the LLM Client's transport-error type `LLMServerRequestError`,
which in turn is never a `ValueError`. -/
theorem c5_parse_error_single_type (s : String) :
    ((∃ e, parse_llm_response s = .error e) ↔ parseFailSpec s) ∧
    (∀ e, parse_llm_response s = .error e →
      e.isValueError = true ∧ e.isLLMServerRequestError = false) ∧
    (∀ o e, call_llm_server o = .error e →
      e.isLLMServerRequestError = true ∧ e.isValueError = false) := by
  refine ⟨?_, ?_, ?_⟩
  · unfold parse_llm_response parseFailSpec braceSpan
    dsimp only
    by_cases hcond : (0 ≤ pyFind ((cleanupResponse s).toList) '{' ∧
        pyFind ((cleanupResponse s).toList) '{' <
          pyRFind ((cleanupResponse s).toList) '}' + 1)
    · have hdec := (braceCond_iff ((cleanupResponse s).toList)).mp hcond
      have hb : (decide (pyFind (cleanupResponse s).toList '{' ≥ 0) &&
          decide (pyRFind (cleanupResponse s).toList '}' + 1 >
            pyFind (cleanupResponse s).toList '{')) = true := by
        simp only [Bool.and_eq_true, decide_eq_true_eq, ge_iff_le, gt_iff_lt]
        exact ⟨hcond.1, hcond.2⟩
      rw [if_pos hb, or_iff_right (not_not_intro hdec)]
      cases hjson : jsonLoads (String.mk (pySlice ((cleanupResponse s).toList)
          (pyFind ((cleanupResponse s).toList) '{').toNat
          (pyRFind ((cleanupResponse s).toList) '}' + 1).toNat)) with
      | none => simp
      | some parsed =>
        dsimp only
        by_cases htr : ((parsed.getD "recipeIngredient").truthy = true ∧
            (parsed.getD "recipeInstructions").truthy = true)
        · have hb2 : ((parsed.getD "recipeIngredient").truthy &&
              (parsed.getD "recipeInstructions").truthy) = true := by
            simp [htr.1, htr.2]
          rw [if_pos hb2]
          simp [htr]
        · have hb2 : ¬ (((parsed.getD "recipeIngredient").truthy &&
              (parsed.getD "recipeInstructions").truthy) = true) := by
            simpa [Bool.and_eq_true] using htr
          rw [if_neg hb2]
          simp only [Except.error.injEq, exists_eq']
          constructor
          · intro _
            exact htr
          · intro _
            trivial
    · have hb : ¬ ((decide (pyFind (cleanupResponse s).toList '{' ≥ 0) &&
          decide (pyRFind (cleanupResponse s).toList '}' + 1 >
            pyFind (cleanupResponse s).toList '{')) = true) := by
        simp only [Bool.and_eq_true, decide_eq_true_eq, ge_iff_le, gt_iff_lt]
        exact hcond
      rw [if_neg hb]
      constructor
      · intro _
        exact Or.inl (fun hd => hcond ((braceCond_iff _).mpr hd))
      · intro _
        exact ⟨_, rfl⟩
  · intro e h
    unfold parse_llm_response at h
    repeat any_goals (first | split at h | (dsimp only at h))
    all_goals (try simp only [Except.error.injEq] at h)
    all_goals (first
      | (cases h; simp [PyError.isValueError, PyError.isLLMServerRequestError])
      | simp at h)
  · intro o e h
    cases o <;> simp only [call_llm_server, Except.error.injEq] at h <;>
      (first
        | (cases h;
           simp [PyError.isValueError, PyError.isLLMServerRequestError])
        | simp at h)

/-- Witness for C5: a brace-free text is a parse failure satisfying
the spec condition, its error is a `ValueError` and not a transport
error, and a transport failure is the converse. -/
theorem c5_parse_error_single_type_witness :
    parseFailSpec "hello" ∧
    ((PyError.valueError "Invalid or empty recipe structure").isValueError = true ∧
     (PyError.valueError
       "Invalid or empty recipe structure").isLLMServerRequestError = false) ∧
    ((PyError.llmServerRequestError
       "Failed to get response from LLM server: x").isLLMServerRequestError = true ∧
     (PyError.llmServerRequestError
       "Failed to get response from LLM server: x").isValueError = false) :=
  ⟨(c5_parse_error_single_type "hello").1.mp ⟨_, rfl⟩,
   (c5_parse_error_single_type "hello").2.1 _ rfl,
   (c5_parse_error_single_type "hello").2.2 (.requestException "x") _ rfl⟩

end UrlToMealie
